import Mathlib

/-!
# Verification of the Ollama benchmark script

A shallow embedding of `src/benchmark.ts`, an Ollama benchmarking script.
The script has two pieces: a single-request prober
(`benchmarkOllamaWithLangchain`) and a run coordinator (`runBenchmark`)
that issues a warm-up call, runs one measured call per prompt in order,
aggregates totals and averages, and appends a summary section plus one
per-test section to a timestamped report file.

Modelling conventions:
* JavaScript numbers are modelled as `ℚ`; the division appearing in the
  average computations is modelled by `jsDiv`, which returns `none` on a
  zero divisor (JavaScript produces `NaN` from `0/0` there).
* The network call is abstracted as a function
  `llm : String → Option ServerResponse`; `none` models any failure of
  the request (unreachable server, missing usage metadata).
* File writes are recorded as events in a trace; the report content is
  kept structured (`Summary`, `TestSection`) rather than rendered to
  markdown, since all claims are about the values and their order.
* The `ChatPromptTemplate` pipeline from `@langchain/core` is an external
  dependency whose code is not part of this repository; it is modelled
  from its documented f-string semantics (`formatFString`).
-/

namespace OllamaBench

/-- Metadata returned by the inference endpoint for one request:
`response_metadata.total_duration` (nanoseconds) and the
`usage_metadata` token counts, plus the content text. -/
structure ServerResponse where
  content : String
  total_duration : ℚ
  input_tokens : ℚ
  output_tokens : ℚ
  total_tokens : ℚ
deriving DecidableEq

/-- One per-prompt record, as returned by `benchmarkOllamaWithLangchain`
(src/benchmark.ts lines 47-56). -/
structure TestResult where
  query : String
  model : String
  tokensPerSecond : ℚ
  response : String
  elapsedTime : ℚ
  inputTokens : ℚ
  outputTokens : ℚ
  totalTokens : ℚ
deriving DecidableEq

/-- Modelled from the spec: the `ChatPromptTemplate.fromTemplate(input)`
then `.invoke({})` pipeline of `@langchain/core` (an external dependency,
its code is not under src/). Documented f-string semantics: `\x7b\x7b` and
`\x7d\x7d` are escapes producing a literal brace; an unescaped `\x7b` opens a
placeholder, which is unbound under the empty argument object and makes
the invocation fail; an unmatched `\x7d` is a format error. Returns the
rendered prompt text, or `none` when formatting fails. -/
def formatFString : List Char → Option (List Char)
  | [] => some []
  | '\x7b' :: '\x7b' :: rest => (formatFString rest).map (fun cs => '\x7b' :: cs)
  | '\x7d' :: '\x7d' :: rest => (formatFString rest).map (fun cs => '\x7d' :: cs)
  | '\x7b' :: _ => none
  | '\x7d' :: _ => none
  | c :: rest => (formatFString rest).map (fun cs => c :: cs)

/-- Modelled from the spec: rendering `input` as a chat prompt template
with no bound variables (see `formatFString`). -/
def chatPromptTemplateInvoke (input : String) : Option String :=
  (formatFString input.toList).map String.mk

/-- The single-request prober (src/benchmark.ts lines 31-57). The raw
`input` string is piped through the chat prompt template and the rendered
prompt is sent to the model; the server metadata is normalized into a
`TestResult`. Any failure (template or request) propagates as `none`. -/
def benchmarkOllamaWithLangchain (llm : String → Option ServerResponse)
    (input model : String) : Option TestResult :=
  match chatPromptTemplateInvoke input with
  | none => none
  | some rendered =>
    match llm rendered with
    | none => none
    | some r =>
      let totalDurationSeconds := r.total_duration / 1000000000
      some { query := input
             model := model
             tokensPerSecond := r.total_tokens / totalDurationSeconds
             response := r.content
             elapsedTime := totalDurationSeconds
             inputTokens := r.input_tokens
             outputTokens := r.output_tokens
             totalTokens := r.total_tokens }

/-- The total `results.reduce((acc, x) => acc + x.elapsedTime, 0)`
(src/benchmark.ts line 95). -/
def totalTime (results : List TestResult) : ℚ :=
  results.foldl (fun acc r => acc + r.elapsedTime) 0

/-- The total `results.reduce((acc, x) => acc + x.inputTokens, 0)`
(src/benchmark.ts line 96). -/
def totalInputTokens (results : List TestResult) : ℚ :=
  results.foldl (fun acc r => acc + r.inputTokens) 0

/-- The total `results.reduce((acc, x) => acc + x.outputTokens, 0)`
(src/benchmark.ts line 97). -/
def totalOutputTokens (results : List TestResult) : ℚ :=
  results.foldl (fun acc r => acc + r.outputTokens) 0

/-- The total `results.reduce((acc, x) => acc + x.totalTokens, 0)`
(src/benchmark.ts line 98). -/
def totalTokens (results : List TestResult) : ℚ :=
  results.foldl (fun acc r => acc + r.totalTokens) 0

/-- JavaScript division as used in the average computations: a zero
divisor yields `none`, modelling the `NaN` produced by `0/0` when the
result list is empty. -/
def jsDiv (x y : ℚ) : Option ℚ := if y = 0 then none else some (x / y)

/-- The average `totalTime / results.length` (src/benchmark.ts line 99). -/
def averageTime (results : List TestResult) : Option ℚ :=
  jsDiv (totalTime results) results.length

/-- The average `totalInputTokens / results.length` (src/benchmark.ts line 100). -/
def averageInputTokens (results : List TestResult) : Option ℚ :=
  jsDiv (totalInputTokens results) results.length

/-- The average `totalOutputTokens / results.length` (src/benchmark.ts line 101). -/
def averageOutputTokens (results : List TestResult) : Option ℚ :=
  jsDiv (totalOutputTokens results) results.length

/-- The average `totalTokens / results.length` (src/benchmark.ts line 102). -/
def averageTotalTokens (results : List TestResult) : Option ℚ :=
  jsDiv (totalTokens results) results.length

/-- The mean rate `results.reduce((acc, x) => acc + x.tokensPerSecond, 0) / results.length`
(src/benchmark.ts lines 103-104). -/
def averageTokensPerSecond (results : List TestResult) : Option ℚ :=
  jsDiv (results.foldl (fun acc r => acc + r.tokensPerSecond) 0) results.length

/-- The values interpolated into the summary section of the report
(src/benchmark.ts lines 106-126). -/
structure Summary where
  model : String
  totalTests : ℕ
  totalTime : ℚ
  totalInputTokens : ℚ
  totalOutputTokens : ℚ
  totalTokens : ℚ
  averageTime : Option ℚ
  averageInputTokens : Option ℚ
  averageOutputTokens : Option ℚ
  averageTotalTokens : Option ℚ
  averageTokensPerSecond : Option ℚ
  testPrompts : List String
deriving DecidableEq

/-- Construction of the summary section (src/benchmark.ts lines 106-126).
The template reads `results[0].model`; when `results` is empty,
`results[0]` is `undefined` and the property access throws, which the
embedding models by returning `none`. -/
def summaryTemplate (results : List TestResult) (tests : List String) :
    Option Summary :=
  match results.head? with
  | none => none
  | some r0 =>
    some { model := r0.model
           totalTests := results.length
           totalTime := totalTime results
           totalInputTokens := totalInputTokens results
           totalOutputTokens := totalOutputTokens results
           totalTokens := totalTokens results
           averageTime := averageTime results
           averageInputTokens := averageInputTokens results
           averageOutputTokens := averageOutputTokens results
           averageTotalTokens := averageTotalTokens results
           averageTokensPerSecond := averageTokensPerSecond results
           testPrompts := tests }

/-- The values interpolated into one per-test section of the report
(src/benchmark.ts lines 136-151); `index` is the 1-based `Test ${i + 1}`
heading number. -/
structure TestSection where
  index : ℕ
  elapsedTime : ℚ
  inputTokens : ℚ
  outputTokens : ℚ
  totalTokens : ℚ
  tokensPerSecond : ℚ
  query : String
  response : String
deriving DecidableEq

/-- Rendering one per-test section from the `i`-th result
(src/benchmark.ts lines 136-151). -/
def mkSection (i : ℕ) (r : TestResult) : TestSection :=
  { index := i + 1
    elapsedTime := r.elapsedTime
    inputTokens := r.inputTokens
    outputTokens := r.outputTokens
    totalTokens := r.totalTokens
    tokensPerSecond := r.tokensPerSecond
    query := r.query
    response := r.response }

/-- The `for (const [i, result] of results.entries())` loop body
(src/benchmark.ts lines 133-153), with explicit index accumulator. -/
def mkSectionsFrom (i : ℕ) : List TestResult → List TestSection
  | [] => []
  | r :: rs => mkSection i r :: mkSectionsFrom (i + 1) rs

/-- All per-test sections, in result order. -/
def mkSections (results : List TestResult) : List TestSection :=
  mkSectionsFrom 0 results

/-- A UTC instant as decomposed by `Date` (`new Date()` at run start). -/
structure JsDate where
  year : ℕ
  month : ℕ
  day : ℕ
  hour : ℕ
  minute : ℕ
  second : ℕ
  ms : ℕ
deriving DecidableEq

/-- The decimal digit character for `n < 10`. -/
def digitChar (n : ℕ) : Char := Char.ofNat (48 + n)

/-- Decimal digit characters of `n`, most significant first, with
explicit recursion fuel (any fuel above `n` is enough). -/
def natDigitsAux : ℕ → ℕ → List Char
  | 0, _ => []
  | fuel + 1, n =>
    if n < 10 then [digitChar n]
    else natDigitsAux fuel (n / 10) ++ [digitChar (n % 10)]

/-- Decimal digit characters of `n`, most significant first. -/
def natDigits (n : ℕ) : List Char := natDigitsAux (n + 1) n

/-- Zero-pad the decimal rendering of `n` to width `w`. -/
def padZeros (w : ℕ) (n : ℕ) : List Char :=
  List.replicate (w - (natDigits n).length) '0' ++ natDigits n

/-- The rendering `Date.prototype.toISOString`, as a character list:
`YYYY-MM-DDTHH:MM:SS.mmmZ` (UTC, four-digit year range). -/
def toISOChars (d : JsDate) : List Char :=
  padZeros 4 d.year ++ ['-'] ++ padZeros 2 d.month ++ ['-'] ++ padZeros 2 d.day
    ++ ['T'] ++ padZeros 2 d.hour ++ [':'] ++ padZeros 2 d.minute ++ [':']
    ++ padZeros 2 d.second ++ ['.'] ++ padZeros 3 d.ms ++ ['Z']

/-- The operation `String.prototype.replace` with a global single-character pattern:
every occurrence of `a` becomes `b`. -/
def replaceAllChar (s : List Char) (a b : Char) : List Char :=
  s.map (fun c => if c = a then b else c)

/-- The timestamp `new Date().toISOString().replace(/:/g, '-').replace(/\./g, '-')`
(src/benchmark.ts line 60). -/
def benchmarkDateTime (d : JsDate) : String :=
  String.mk (replaceAllChar (replaceAllChar (toISOChars d) ':' '-') '.' '-')

/-- The report file path (src/benchmark.ts lines 128 and 152). -/
def reportFileName (d : JsDate) : String :=
  "./results/benchmark-" ++ benchmarkDateTime d ++ ".md"

/-- One externally visible step of a run: a prober call to the inference
endpoint, or an append-mode write of one report part. -/
inductive ReportPart
  | summaryPart (s : Summary)
  | testPart (s : TestSection)
deriving DecidableEq

/-- The trace alphabet of `runBenchmark`: network calls and file writes,
in program order. -/
inductive Event
  | call (prompt : String)
  | write (part : ReportPart)
deriving DecidableEq

/-- The report written by a successful run: file path, the summary
section, then the per-test sections in order. -/
structure Report where
  fileName : String
  summary : Summary
  sections : List TestSection
deriving DecidableEq

/-- The measured-call loop (src/benchmark.ts lines 79-84): one awaited
prober call per prompt, in list order, stopping at the first failure.
Returns the emitted call events, the recorded results, and whether every
call succeeded. -/
def runTests (llm : String → Option ServerResponse) (model : String) :
    List String → List Event × List TestResult × Bool
  | [] => ([], [], true)
  | t :: ts =>
    match benchmarkOllamaWithLangchain llm t model with
    | none => ([Event.call t], [], false)
    | some r =>
      let rest := runTests llm model ts
      (Event.call t :: rest.1, r :: rest.2.1, rest.2.2)

/-- The run coordinator (src/benchmark.ts lines 59-157): take the start
timestamp, issue the discarded warm-up call with prompt `"Hello"`, run
the measured loop, build the summary, then append the summary part and
one part per test to the report file. A failure anywhere aborts the run
(second component `none`) after the events already performed. -/
def runBenchmark (llm : String → Option ServerResponse)
    (tests : List String) (model : String) (now : JsDate) :
    List Event × Option Report :=
  let dateTime := benchmarkDateTime now
  match benchmarkOllamaWithLangchain llm "Hello" model with
  | none => ([Event.call "Hello"], none)
  | some _ =>
    let rest := runTests llm model tests
    match rest.2.2, summaryTemplate rest.2.1 tests with
    | true, some summ =>
      let sections := mkSections rest.2.1
      (Event.call "Hello" :: rest.1
         ++ Event.write (ReportPart.summaryPart summ)
           :: sections.map (fun s => Event.write (ReportPart.testPart s)),
       some { fileName := "./results/benchmark-" ++ dateTime ++ ".md"
              summary := summ
              sections := sections })
    | _, _ => (Event.call "Hello" :: rest.1, none)

/-- The prompts of the call events of a trace, in order. -/
def callPrompts : List Event → List String
  | [] => []
  | Event.call p :: rest => p :: callPrompts rest
  | Event.write _ :: rest => callPrompts rest

/-- ASCII decimal digit test. -/
def isAsciiDigit (c : Char) : Bool := decide ('0' ≤ c) && decide (c ≤ '9')

/-- One position of a timestamp shape: a digit, a hyphen, the `T` date
and time separator, or the trailing `Z` UTC designator. -/
inductive PatChar
  | dd
  | dash
  | tsep
  | zee
deriving DecidableEq

/-- Whether one character fits one pattern position. -/
def patCharMatches : PatChar → Char → Bool
  | PatChar.dd, c => isAsciiDigit c
  | PatChar.dash, c => c = '-'
  | PatChar.tsep, c => c = 'T'
  | PatChar.zee, c => c = 'Z'

/-- Whether a character list has exactly the given shape. -/
def matchesPat : List Char → List PatChar → Bool
  | [], [] => true
  | c :: cs, p :: ps => patCharMatches p c && matchesPat cs ps
  | _, _ => false

/-- The timestamp shape `YYYY-MM-DDTHH-MM-SS-mmm` as the spec states
it: 23 positions, no trailing UTC designator. -/
def claimedTimestampPat : List PatChar :=
  List.replicate 4 PatChar.dd ++ [PatChar.dash] ++ List.replicate 2 PatChar.dd
    ++ [PatChar.dash] ++ List.replicate 2 PatChar.dd ++ [PatChar.tsep]
    ++ List.replicate 2 PatChar.dd ++ [PatChar.dash] ++ List.replicate 2 PatChar.dd
    ++ [PatChar.dash] ++ List.replicate 2 PatChar.dd ++ [PatChar.dash]
    ++ List.replicate 3 PatChar.dd

/-- The timestamp shape the code actually produces:
`YYYY-MM-DDTHH-MM-SS-mmmZ`, with the `Z` kept from `toISOString`. -/
def amendedTimestampPat : List PatChar :=
  claimedTimestampPat ++ [PatChar.zee]

/-! ## Concrete instances used by the witnesses -/

/-- A mock endpoint: the scenario response from the spec for the prompt
`"2+2=?"`, a small fixed response otherwise. -/
def llmW : String → Option ServerResponse := fun p =>
  if p = "2+2=?" then some ⟨"4", 2000000000, 5, 1, 6⟩
  else some ⟨"ok", 1000000000, 1, 1, 2⟩

/-- A fixed run start instant. -/
def dateW : JsDate := ⟨2024, 1, 2, 3, 4, 5, 6⟩

/-- A concrete successful run over the spec's scenario prompt list. -/
def runW : List Event × Option Report :=
  runBenchmark llmW ["2+2=?"] "test-model" dateW

/-- The report of the concrete run `runW`. -/
def repW : Report :=
  match runW.2 with
  | some r => r
  | none => ⟨"", ⟨"", 0, 0, 0, 0, 0, none, none, none, none, none, []⟩, []⟩

/-- Two concrete recorded results with different token rates: 1 token
in 1 s and 9 tokens in 3 s (rates 1 and 3, mean 2, while total tokens
over total time is 10/4). -/
def rs2W : List TestResult :=
  [⟨"a", "m", 1, "ra", 1, 1, 0, 1⟩, ⟨"b", "m", 3, "rb", 3, 1, 8, 9⟩]

/-! ## Helper lemmas -/

/-- A successful prober call is fully determined by the rendered prompt
and the server response. -/
lemma benchmarkOllamaWithLangchain_eq_some
    {llm : String → Option ServerResponse} {input model : String}
    {res : TestResult}
    (h : benchmarkOllamaWithLangchain llm input model = some res) :
    ∃ rendered r, chatPromptTemplateInvoke input = some rendered ∧
      llm rendered = some r ∧
      res = { query := input
              model := model
              tokensPerSecond := r.total_tokens / (r.total_duration / 1000000000)
              response := r.content
              elapsedTime := r.total_duration / 1000000000
              inputTokens := r.input_tokens
              outputTokens := r.output_tokens
              totalTokens := r.total_tokens } := by
  unfold benchmarkOllamaWithLangchain at h
  cases ht : chatPromptTemplateInvoke input with
  | none => rw [ht] at h; simp at h
  | some rendered =>
    rw [ht] at h
    dsimp only at h
    cases hr : llm rendered with
    | none => rw [hr] at h; simp at h
    | some r =>
      rw [hr] at h
      dsimp only at h
      exact ⟨rendered, r, rfl, hr, by simpa using h.symm⟩

/-- The query recorded in a successful prober result is the raw input
prompt. -/
lemma prober_query {llm : String → Option ServerResponse}
    {input model : String} {res : TestResult}
    (h : benchmarkOllamaWithLangchain llm input model = some res) :
    res.query = input := by
  obtain ⟨rendered, r, -, -, hres⟩ := benchmarkOllamaWithLangchain_eq_some h
  rw [hres]

/-- When every measured call succeeds, the loop's call events are the
prompts in order and the recorded queries are exactly the prompts. -/
lemma runTests_ok (llm : String → Option ServerResponse) (model : String) :
    ∀ ts : List String, (runTests llm model ts).2.2 = true →
      (runTests llm model ts).1 = ts.map Event.call ∧
      (runTests llm model ts).2.1.map TestResult.query = ts := by
  intro ts
  induction ts with
  | nil => intro _; simp [runTests]
  | cons t ts ih =>
    intro hok
    cases hp : benchmarkOllamaWithLangchain llm t model with
    | none => rw [runTests, hp] at hok; simp at hok
    | some r =>
      rw [runTests, hp] at hok
      dsimp only at hok
      obtain ⟨h1, h2⟩ := ih hok
      rw [runTests, hp]
      dsimp only
      rw [List.map_cons, List.map_cons, h1, prober_query hp, h2]
      exact ⟨rfl, rfl⟩

/-- If some prompt's prober call fails, the loop reports failure. -/
lemma runTests_fail (llm : String → Option ServerResponse) (model : String) :
    ∀ ts : List String,
      (∃ t ∈ ts, benchmarkOllamaWithLangchain llm t model = none) →
      (runTests llm model ts).2.2 = false := by
  intro ts
  induction ts with
  | nil => rintro ⟨t, ht, -⟩; exact absurd ht (List.not_mem_nil t)
  | cons t ts ih =>
    rintro ⟨u, hu, hfail⟩
    cases hp : benchmarkOllamaWithLangchain llm t model with
    | none => rw [runTests, hp]
    | some r =>
      rw [runTests, hp]
      simp only
      rcases List.mem_cons.mp hu with h | h
      · subst h; rw [hp] at hfail; exact absurd hfail (by simp)
      · exact ih ⟨u, h, hfail⟩

/-- Every event the measured loop emits is a call event. -/
lemma runTests_calls (llm : String → Option ServerResponse) (model : String) :
    ∀ (ts : List String) (e : Event), e ∈ (runTests llm model ts).1 →
      ∃ p, e = Event.call p := by
  intro ts
  induction ts with
  | nil => intro e he; simp [runTests] at he
  | cons t ts ih =>
    intro e he
    cases hp : benchmarkOllamaWithLangchain llm t model with
    | none =>
      rw [runTests, hp] at he
      simp at he
      exact ⟨t, he⟩
    | some r =>
      rw [runTests, hp] at he
      simp only [List.mem_cons] at he
      rcases he with h | h
      · exact ⟨t, h⟩
      · exact ih e h

/-- Inversion of a successful run: the loop succeeded, the summary was
built from the recorded results, and the trace is the warm-up call, the
measured calls, then the summary write and the per-test writes. -/
lemma runBenchmark_eq_some {llm : String → Option ServerResponse}
    {tests : List String} {model : String} {now : JsDate}
    {evs : List Event} {rep : Report}
    (h : runBenchmark llm tests model now = (evs, some rep)) :
    (runTests llm model tests).2.2 = true ∧
    summaryTemplate (runTests llm model tests).2.1 tests = some rep.summary ∧
    rep.sections = mkSections (runTests llm model tests).2.1 ∧
    rep.fileName = reportFileName now ∧
    evs = Event.call "Hello" :: (runTests llm model tests).1
        ++ Event.write (ReportPart.summaryPart rep.summary)
          :: rep.sections.map (fun s => Event.write (ReportPart.testPart s)) := by
  unfold runBenchmark at h
  cases hw : benchmarkOllamaWithLangchain llm "Hello" model with
  | none => rw [hw] at h; simp at h
  | some w =>
    rw [hw] at h
    dsimp only at h
    cases hok : (runTests llm model tests).2.2 with
    | false =>
      rw [hok] at h
      cases hs : summaryTemplate (runTests llm model tests).2.1 tests with
      | none => rw [hs] at h; simp at h
      | some s => rw [hs] at h; simp at h
    | true =>
      rw [hok] at h
      cases hs : summaryTemplate (runTests llm model tests).2.1 tests with
      | none => rw [hs] at h; simp at h
      | some summ =>
        rw [hs] at h
        simp only [Prod.mk.injEq, Option.some.injEq] at h
        obtain ⟨hevs, hrep⟩ := h
        subst hrep
        exact ⟨rfl, rfl, rfl, rfl, hevs.symm⟩

/-- A fold `reduce((acc, x) => acc + f x, a)` computes `a` plus the sum of the
mapped values. -/
lemma foldl_add_eq_sum (f : TestResult → ℚ) :
    ∀ (l : List TestResult) (a : ℚ),
      l.foldl (fun acc r => acc + f r) a = a + (l.map f).sum := by
  intro l
  induction l with
  | nil => intro a; simp
  | cons r rs ih =>
    intro a
    simp only [List.foldl_cons, List.map_cons, List.sum_cons, ih]
    ring

/-- Mapping a per-section field over the rendered sections agrees with
mapping the corresponding per-result field, whatever the start index. -/
lemma mkSectionsFrom_map {α : Type} (g : TestSection → α) (f : TestResult → α)
    (hgf : ∀ i r, g (mkSection i r) = f r) :
    ∀ (l : List TestResult) (i : ℕ),
      (mkSectionsFrom i l).map g = l.map f := by
  intro l
  induction l with
  | nil => intro i; simp [mkSectionsFrom]
  | cons r rs ih =>
    intro i
    simp [mkSectionsFrom, hgf, ih]

/-- The heading numbers of the rendered sections count up from `i + 1`. -/
lemma mkSectionsFrom_index :
    ∀ (l : List TestResult) (i : ℕ),
      (mkSectionsFrom i l).map TestSection.index = List.range' (i + 1) l.length := by
  intro l
  induction l with
  | nil => intro i; simp [mkSectionsFrom]
  | cons r rs ih =>
    intro i
    simp only [mkSectionsFrom, List.map_cons, List.length_cons, List.range'_succ,
      mkSection, ih]

/-- Inversion of a successfully built summary: the result list is
non-empty and every field is the corresponding aggregate. -/
lemma summaryTemplate_eq_some {results : List TestResult}
    {tests : List String} {s : Summary}
    (h : summaryTemplate results tests = some s) :
    results ≠ [] ∧
    s.totalTests = results.length ∧
    s.totalTime = totalTime results ∧
    s.totalInputTokens = totalInputTokens results ∧
    s.totalOutputTokens = totalOutputTokens results ∧
    s.totalTokens = totalTokens results ∧
    s.averageTime = averageTime results ∧
    s.averageInputTokens = averageInputTokens results ∧
    s.averageOutputTokens = averageOutputTokens results ∧
    s.averageTotalTokens = averageTotalTokens results ∧
    s.averageTokensPerSecond = averageTokensPerSecond results ∧
    s.testPrompts = tests := by
  cases results with
  | nil => simp [summaryTemplate] at h
  | cons r rs =>
    rw [summaryTemplate] at h
    simp only [List.head?_cons, Option.some.injEq] at h
    subst h
    refine ⟨by simp, rfl, rfl, rfl, rfl, rfl, rfl, rfl, rfl, rfl, rfl, rfl⟩

/-- The observation `callPrompts` distributes over concatenation of traces. -/
lemma callPrompts_append (l1 l2 : List Event) :
    callPrompts (l1 ++ l2) = callPrompts l1 ++ callPrompts l2 := by
  induction l1 with
  | nil => rfl
  | cons e rest ih =>
    cases e with
    | call p => simp [callPrompts, ih]
    | write w => simp [callPrompts, ih]

/-- A trace of pure call events has exactly those prompts. -/
lemma callPrompts_map_call (l : List String) :
    callPrompts (l.map Event.call) = l := by
  induction l with
  | nil => rfl
  | cons x xs ih => rw [List.map_cons, callPrompts, ih]

/-- A trace of pure write events has no call prompts. -/
lemma callPrompts_map_write {α : Type} (f : α → ReportPart) (l : List α) :
    callPrompts (l.map fun a => Event.write (f a)) = [] := by
  induction l with
  | nil => rfl
  | cons x xs ih => rw [List.map_cons, callPrompts, ih]

/-- The rendered sections are in bijection with the results. -/
lemma mkSectionsFrom_length :
    ∀ (l : List TestResult) (i : ℕ), (mkSectionsFrom i l).length = l.length := by
  intro l
  induction l with
  | nil => intro i; simp [mkSectionsFrom]
  | cons r rs ih => intro i; simp [mkSectionsFrom, ih]

/-- The decimal digit character of `n < 10` is an ASCII digit. -/
lemma isAsciiDigit_digitChar {n : ℕ} (h : n < 10) :
    isAsciiDigit (digitChar n) = true := by
  interval_cases n <;> decide

/-- Every character produced by the digit renderer is an ASCII digit. -/
lemma natDigitsAux_digits :
    ∀ (fuel n : ℕ) (c : Char), c ∈ natDigitsAux fuel n →
      isAsciiDigit c = true := by
  intro fuel
  induction fuel with
  | zero => intro n c hc; simp [natDigitsAux] at hc
  | succ fuel ih =>
    intro n c hc
    rw [natDigitsAux] at hc
    by_cases h : n < 10
    · rw [if_pos h] at hc
      simp at hc
      subst hc
      exact isAsciiDigit_digitChar h
    · rw [if_neg h] at hc
      rcases List.mem_append.mp hc with h1 | h1
      · exact ih (n / 10) c h1
      · simp at h1
        subst h1
        exact isAsciiDigit_digitChar (Nat.mod_lt n (by omega))

/-- A number below `10 ^ k` renders to at most `k` digit characters,
whatever the fuel. -/
lemma natDigitsAux_length_le :
    ∀ (fuel n k : ℕ), n < 10 ^ k → 1 ≤ k →
      (natDigitsAux fuel n).length ≤ k := by
  intro fuel
  induction fuel with
  | zero => intro n k _ _; simp [natDigitsAux]
  | succ fuel ih =>
    intro n k hn hk
    rw [natDigitsAux]
    by_cases h : n < 10
    · rw [if_pos h]
      simpa using hk
    · rw [if_neg h]
      have hk2 : 2 ≤ k := by
        by_contra hcon
        push_neg at hcon
        have hk1 : k = 1 := by omega
        subst hk1
        simp at hn
        exact h hn
      have hdiv : n / 10 < 10 ^ (k - 1) := by
        rw [Nat.div_lt_iff_lt_mul (by norm_num)]
        calc n < 10 ^ k := hn
          _ = 10 ^ (k - 1) * 10 := by
              rw [← pow_succ]
              congr 1
              omega
      have hlen := ih (n / 10) (k - 1) hdiv (by omega)
      rw [List.length_append, List.length_singleton]
      omega

/-- Every character of a zero-padded number is an ASCII digit. -/
lemma padZeros_digits (w n : ℕ) :
    ∀ c ∈ padZeros w n, isAsciiDigit c = true := by
  intro c hc
  rw [padZeros] at hc
  rcases List.mem_append.mp hc with h1 | h1
  · rw [List.eq_of_mem_replicate h1]
    decide
  · exact natDigitsAux_digits (n + 1) n c h1

/-- Zero-padding a number below `10 ^ w` to width `w` gives exactly `w`
characters. -/
lemma padZeros_length (w n : ℕ) (hn : n < 10 ^ w) (hw : 1 ≤ w) :
    (padZeros w n).length = w := by
  have hle : (natDigits n).length ≤ w := natDigitsAux_length_le (n + 1) n w hn hw
  rw [padZeros, List.length_append, List.length_replicate]
  omega

/-- A list of ASCII digits matches the all-digit pattern of its own
length. -/
lemma matchesPat_replicate_dd :
    ∀ (cs : List Char), (∀ c ∈ cs, isAsciiDigit c = true) →
      matchesPat cs (List.replicate cs.length PatChar.dd) = true := by
  intro cs
  induction cs with
  | nil => intro _; rfl
  | cons c cs ih =>
    intro h
    rw [List.length_cons, List.replicate_succ, matchesPat,
      ih (fun x hx => h x (List.mem_cons_of_mem c hx))]
    have hc : patCharMatches PatChar.dd c = true := h c (List.mem_cons_self c cs)
    rw [hc]
    rfl

/-- A zero-padded number below `10 ^ w` matches `w` digit positions. -/
lemma padZeros_matches (w n : ℕ) (hn : n < 10 ^ w) (hw : 1 ≤ w) :
    matchesPat (padZeros w n) (List.replicate w PatChar.dd) = true ∧
    (padZeros w n).length = (List.replicate w PatChar.dd).length := by
  have hlen := padZeros_length w n hn hw
  constructor
  · have h := matchesPat_replicate_dd (padZeros w n) (padZeros_digits w n)
    rwa [hlen] at h
  · rw [hlen, List.length_replicate]

/-- Shape matching concatenates, provided the first parts have matching
lengths. -/
lemma matchesPat_append_len :
    ∀ (xs : List Char) (ps : List PatChar) (ys : List Char) (qs : List PatChar),
      matchesPat xs ps = true → xs.length = ps.length →
      matchesPat ys qs = true → ys.length = qs.length →
      matchesPat (xs ++ ys) (ps ++ qs) = true ∧
        (xs ++ ys).length = (ps ++ qs).length := by
  intro xs
  induction xs with
  | nil =>
    intro ps ys qs hx hlx hy hly
    have hps : ps = [] := by
      cases ps with
      | nil => rfl
      | cons p ps => simp at hlx
    subst hps
    simpa [hly] using hy
  | cons c cs ih =>
    intro ps ys qs hx hlx hy hly
    cases ps with
    | nil => simp at hlx
    | cons p ps =>
      rw [matchesPat] at hx
      obtain ⟨h1, h2⟩ := Bool.and_eq_true_iff.mp hx
      have hlx2 : cs.length = ps.length := by simpa using hlx
      obtain ⟨hm, hl⟩ := ih ps ys qs h2 hlx2 hy hly
      rw [List.cons_append, List.cons_append]
      constructor
      · rw [matchesPat, h1, hm]
        rfl
      · simp only [List.length_cons, hl]

/-- A character never appears in the output of its own global
replacement by a different character. -/
lemma not_mem_replaceAllChar (s : List Char) (a b : Char) (hab : b ≠ a) :
    a ∉ replaceAllChar s a b := by
  intro hmem
  obtain ⟨c, hc, heq⟩ := List.mem_map.mp hmem
  by_cases h : c = a
  · rw [if_pos h] at heq
    exact hab heq
  · rw [if_neg h] at heq
    exact h heq

/-- Global replacement introduces no occurrence of an absent character
other than the replacement character itself. -/
lemma not_mem_replaceAllChar_of_not_mem (s : List Char) (x y a : Char)
    (hy : y ≠ a) (h : a ∉ s) : a ∉ replaceAllChar s x y := by
  intro hmem
  obtain ⟨c, hc, heq⟩ := List.mem_map.mp hmem
  by_cases hcx : c = x
  · rw [if_pos hcx] at heq
    exact hy heq
  · rw [if_neg hcx] at heq
    exact h (heq ▸ hc)

/-- Replacement of an absent character does nothing. -/
lemma replaceAllChar_eq_self (a b : Char) :
    ∀ s : List Char, a ∉ s → replaceAllChar s a b = s := by
  intro s
  induction s with
  | nil => intro _; rfl
  | cons c cs ih =>
    intro h
    have hca : c ≠ a := fun hc => h (hc ▸ List.mem_cons_self c cs)
    have hcs : a ∉ cs := fun hm => h (List.mem_cons_of_mem c hm)
    show (if c = a then b else c) :: replaceAllChar cs a b = c :: cs
    rw [if_neg hca, ih hcs]

/-- Replacement of a non-digit character fixes all-digit lists. -/
lemma replace_fix_digits (s : List Char)
    (hd : ∀ c ∈ s, isAsciiDigit c = true) (a b : Char)
    (ha : isAsciiDigit a = false) :
    replaceAllChar s a b = s := by
  apply replaceAllChar_eq_self
  intro hmem
  rw [hd a hmem] at ha
  exact Bool.noConfusion ha

/-- Global replacement distributes over concatenation. -/
lemma replaceAllChar_append (s t : List Char) (a b : Char) :
    replaceAllChar (s ++ t) a b = replaceAllChar s a b ++ replaceAllChar t a b :=
  List.map_append _ s t

/-- Wrapping a character list and reading it back is the identity. -/
lemma string_mk_toList (l : List Char) : (String.mk l).toList = l := rfl

/-- The file-name timestamp unfolded to its two replacement passes. -/
lemma benchmarkDateTime_def (d : JsDate) :
    benchmarkDateTime d =
      String.mk (replaceAllChar (replaceAllChar (toISOChars d) ':' '-') '.' '-') :=
  rfl

/-- The characters of the file-name timestamp. -/
lemma benchmarkDateTime_toList (d : JsDate) :
    (benchmarkDateTime d).toList =
      replaceAllChar (replaceAllChar (toISOChars d) ':' '-') '.' '-' := by
  rw [benchmarkDateTime_def d]
  exact string_mk_toList _

/-! ## Claims -/

/-- C1: for every run that produces a report (any non-empty prompt list
with all calls succeeding), the totals in the summary equal the sums of
the corresponding per-test values: total tokens is the sum of the
per-test `totalTokens`, and likewise for input tokens, output tokens and
elapsed time (src/benchmark.ts lines 95-98). -/
theorem summary_totals_are_sums
    (llm : String → Option ServerResponse) (tests : List String)
    (model : String) (now : JsDate) (evs : List Event) (rep : Report)
    (h : runBenchmark llm tests model now = (evs, some rep)) :
    rep.summary.totalTokens = (rep.sections.map TestSection.totalTokens).sum ∧
    rep.summary.totalInputTokens = (rep.sections.map TestSection.inputTokens).sum ∧
    rep.summary.totalOutputTokens = (rep.sections.map TestSection.outputTokens).sum ∧
    rep.summary.totalTime = (rep.sections.map TestSection.elapsedTime).sum := by
  obtain ⟨hok, hs, hsec, -, -⟩ := runBenchmark_eq_some h
  obtain ⟨-, -, htime, hin, hout, htok, -, -, -, -, -, -⟩ := summaryTemplate_eq_some hs
  rw [hsec, htok, htime, hin, hout, mkSections]
  rw [mkSectionsFrom_map TestSection.totalTokens TestResult.totalTokens (fun i r => rfl),
      mkSectionsFrom_map TestSection.inputTokens TestResult.inputTokens (fun i r => rfl),
      mkSectionsFrom_map TestSection.outputTokens TestResult.outputTokens (fun i r => rfl),
      mkSectionsFrom_map TestSection.elapsedTime TestResult.elapsedTime (fun i r => rfl)]
  unfold totalTokens totalInputTokens totalOutputTokens totalTime
  rw [foldl_add_eq_sum, foldl_add_eq_sum, foldl_add_eq_sum, foldl_add_eq_sum]
  simp

/-- Witness for C1 on the concrete run `runW`. -/
theorem summary_totals_are_sums_witness :
    repW.summary.totalTokens = (repW.sections.map TestSection.totalTokens).sum ∧
    repW.summary.totalInputTokens = (repW.sections.map TestSection.inputTokens).sum ∧
    repW.summary.totalOutputTokens = (repW.sections.map TestSection.outputTokens).sum ∧
    repW.summary.totalTime = (repW.sections.map TestSection.elapsedTime).sum :=
  summary_totals_are_sums llmW ["2+2=?"] "test-model" dateW runW.1 repW rfl

/-- C2: the Score reported by any run is the arithmetic mean of the
per-test tokens-per-second rates (src/benchmark.ts lines 103-104), and on
the concrete run `run2W` it differs from total tokens divided by total
time, so the two definitions do not coincide. -/
theorem score_is_mean_of_rates :
    (∀ (llm : String → Option ServerResponse) (tests : List String)
       (model : String) (now : JsDate) (evs : List Event) (rep : Report),
       runBenchmark llm tests model now = (evs, some rep) →
       rep.summary.averageTokensPerSecond =
         some ((rep.sections.map TestSection.tokensPerSecond).sum /
           rep.sections.length)) ∧
    averageTokensPerSecond rs2W ≠
      some (totalTokens rs2W / totalTime rs2W) := by
  constructor
  · intro llm tests model now evs rep h
    obtain ⟨hok, hs, hsec, -, -⟩ := runBenchmark_eq_some h
    obtain ⟨hne, -, -, -, -, -, -, -, -, -, havg, -⟩ := summaryTemplate_eq_some hs
    have hlen0 : (runTests llm model tests).2.1.length ≠ 0 :=
      fun h0 => hne (List.length_eq_zero.mp h0)
    have hlen : (((runTests llm model tests).2.1.length : ℕ) : ℚ) ≠ 0 := by
      exact_mod_cast hlen0
    rw [havg, hsec, mkSections, averageTokensPerSecond,
      mkSectionsFrom_map TestSection.tokensPerSecond TestResult.tokensPerSecond
        (fun i r => rfl),
      mkSectionsFrom_length, foldl_add_eq_sum, jsDiv]
    rw [if_neg hlen]
    simp
  · have h1 : averageTokensPerSecond rs2W = some 2 := by
      unfold averageTokensPerSecond rs2W jsDiv
      norm_num
    have h2 : totalTokens rs2W / totalTime rs2W = 5 / 2 := by
      unfold totalTokens totalTime rs2W
      norm_num
    rw [h1, h2]
    norm_num

/-- Witness for C2 on the concrete run `runW`. -/
theorem score_is_mean_of_rates_witness :
    repW.summary.averageTokensPerSecond =
      some ((repW.sections.map TestSection.tokensPerSecond).sum /
        repW.sections.length) :=
  score_is_mean_of_rates.1 llmW ["2+2=?"] "test-model" dateW runW.1 repW rfl

/-- C3: every average field of the summary of any run equals the
corresponding total divided by the number of recorded tests
(src/benchmark.ts lines 99-102). -/
theorem averages_are_totals_over_count
    (llm : String → Option ServerResponse) (tests : List String)
    (model : String) (now : JsDate) (evs : List Event) (rep : Report)
    (h : runBenchmark llm tests model now = (evs, some rep)) :
    rep.summary.averageTime =
      some (rep.summary.totalTime / rep.summary.totalTests) ∧
    rep.summary.averageInputTokens =
      some (rep.summary.totalInputTokens / rep.summary.totalTests) ∧
    rep.summary.averageOutputTokens =
      some (rep.summary.totalOutputTokens / rep.summary.totalTests) ∧
    rep.summary.averageTotalTokens =
      some (rep.summary.totalTokens / rep.summary.totalTests) := by
  obtain ⟨hok, hs, -, -, -⟩ := runBenchmark_eq_some h
  obtain ⟨hne, hcount, htime, hin, hout, htok, havt, havi, havo, havtt, -, -⟩ :=
    summaryTemplate_eq_some hs
  have hlen0 : (runTests llm model tests).2.1.length ≠ 0 :=
    fun h0 => hne (List.length_eq_zero.mp h0)
  have hlen : (((runTests llm model tests).2.1.length : ℕ) : ℚ) ≠ 0 := by
    exact_mod_cast hlen0
  rw [havt, havi, havo, havtt, hcount, htime, htok, hin, hout]
  unfold averageTime averageInputTokens averageOutputTokens averageTotalTokens jsDiv
  rw [if_neg hlen, if_neg hlen, if_neg hlen, if_neg hlen]
  exact ⟨rfl, rfl, rfl, rfl⟩

/-- Witness for C3 on the concrete run `runW`. -/
theorem averages_are_totals_over_count_witness :
    repW.summary.averageTime =
      some (repW.summary.totalTime / repW.summary.totalTests) ∧
    repW.summary.averageInputTokens =
      some (repW.summary.totalInputTokens / repW.summary.totalTests) ∧
    repW.summary.averageOutputTokens =
      some (repW.summary.totalOutputTokens / repW.summary.totalTests) ∧
    repW.summary.averageTotalTokens =
      some (repW.summary.totalTokens / repW.summary.totalTests) :=
  averages_are_totals_over_count llmW ["2+2=?"] "test-model" dateW runW.1 repW rfl

/-- C4: a successful prober call normalizes the server-reported
nanosecond duration to seconds and reports `totalTokens / elapsedTime`
as the rate (src/benchmark.ts lines 40-45); on the spec's scenario
response (2 000 000 000 ns, 6 tokens) the result has `elapsedTime = 2`
and `tokensPerSecond = 3`. -/
theorem prober_duration_and_rate :
    (∀ (llm : String → Option ServerResponse) (input model rendered : String)
       (r : ServerResponse),
       chatPromptTemplateInvoke input = some rendered →
       llm rendered = some r →
       ∃ res, benchmarkOllamaWithLangchain llm input model = some res ∧
         res.elapsedTime = r.total_duration / 1000000000 ∧
         res.totalTokens = r.total_tokens ∧
         res.tokensPerSecond = res.totalTokens / res.elapsedTime) ∧
    (∃ res, benchmarkOllamaWithLangchain llmW "2+2=?" "test-model" = some res ∧
       res.elapsedTime = 2 ∧ res.tokensPerSecond = 3 ∧ res.totalTokens = 6) := by
  constructor
  · intro llm input model rendered r h1 h2
    refine ⟨{ query := input
              model := model
              tokensPerSecond := r.total_tokens / (r.total_duration / 1000000000)
              response := r.content
              elapsedTime := r.total_duration / 1000000000
              inputTokens := r.input_tokens
              outputTokens := r.output_tokens
              totalTokens := r.total_tokens }, ?_, rfl, rfl, rfl⟩
    unfold benchmarkOllamaWithLangchain
    rw [h1]
    dsimp only
    rw [h2]
  · refine ⟨_, rfl, ?_, ?_, ?_⟩ <;> norm_num

/-- Witness for C4: the universal part instantiated on the scenario
endpoint and prompt. -/
theorem prober_duration_and_rate_witness :
    ∃ res, benchmarkOllamaWithLangchain llmW "2+2=?" "test-model" = some res ∧
      res.elapsedTime = (2000000000 : ℚ) / 1000000000 ∧
      res.totalTokens = 6 ∧
      res.tokensPerSecond = res.totalTokens / res.elapsedTime := by
  have h := prober_duration_and_rate.1 llmW "2+2=?" "test-model" "2+2=?"
    ⟨"4", 2000000000, 5, 1, 6⟩ rfl rfl
  exact h

/-- C5: every run issues the warm-up call with prompt "Hello" first
(src/benchmark.ts line 75); on a completed run the call sequence is
exactly the warm-up followed by one call per prompt, the recorded
results are those of the measured calls only, and when "Hello" is not
itself a test prompt no recorded result or report section carries the
warm-up query. -/
theorem warmup_discarded
    (llm : String → Option ServerResponse) (tests : List String)
    (model : String) (now : JsDate) :
    (runBenchmark llm tests model now).1.head? = some (Event.call "Hello") ∧
    (∀ evs rep, runBenchmark llm tests model now = (evs, some rep) →
       callPrompts evs = "Hello" :: tests ∧
       (runTests llm model tests).2.1.map TestResult.query = tests ∧
       ("Hello" ∉ tests →
         (∀ r ∈ (runTests llm model tests).2.1, r.query ≠ "Hello") ∧
         (∀ s ∈ rep.sections, s.query ≠ "Hello"))) := by
  constructor
  · unfold runBenchmark
    cases hw : benchmarkOllamaWithLangchain llm "Hello" model with
    | none => rfl
    | some w =>
      dsimp only
      cases hok : (runTests llm model tests).2.2 with
      | false =>
        cases hs : summaryTemplate (runTests llm model tests).2.1 tests with
        | none => rfl
        | some s => rfl
      | true =>
        cases hs : summaryTemplate (runTests llm model tests).2.1 tests with
        | none => rfl
        | some s => rfl
  · intro evs rep h
    obtain ⟨hok, -, hsec, -, hevs⟩ := runBenchmark_eq_some h
    obtain ⟨hev, hq⟩ := runTests_ok llm model tests hok
    have hcp : callPrompts evs = "Hello" :: tests := by
      rw [hevs, hev, callPrompts_append]
      simp [callPrompts, callPrompts_map_call, callPrompts_map_write]
    refine ⟨hcp, hq, ?_⟩
    intro hh
    constructor
    · intro r hr
      have hmem : r.query ∈ tests := by
        rw [← hq]
        exact List.mem_map_of_mem TestResult.query hr
      intro hrq
      rw [hrq] at hmem
      exact hh hmem
    · intro s hsmem
      have hq2 : (mkSections (runTests llm model tests).2.1).map
          TestSection.query = tests := by
        rw [mkSections,
          mkSectionsFrom_map TestSection.query TestResult.query (fun i r => rfl), hq]
      have hmem : s.query ∈ tests := by
        rw [← hq2]
        exact List.mem_map_of_mem TestSection.query (hsec ▸ hsmem)
      intro hsq
      rw [hsq] at hmem
      exact hh hmem

/-- Witness for C5 on the concrete run `runW`. -/
theorem warmup_discarded_witness :
    callPrompts runW.1 = "Hello" :: ["2+2=?"] ∧
    (runTests llmW "test-model" ["2+2=?"]).2.1.map TestResult.query = ["2+2=?"] :=
  let h := (warmup_discarded llmW ["2+2=?"] "test-model" dateW).2 runW.1 repW rfl
  ⟨h.1, h.2.1⟩

/-- C8: on a completed run the prober is invoked once per prompt in list
order (after the warm-up), the i-th recorded result's query is the i-th
prompt, and the per-test report sections carry the prompts in the same
order with 1-based consecutive heading numbers
(src/benchmark.ts lines 79-84 and 133-153). -/
theorem prober_called_in_order
    (llm : String → Option ServerResponse) (tests : List String)
    (model : String) (now : JsDate) (evs : List Event) (rep : Report)
    (h : runBenchmark llm tests model now = (evs, some rep)) :
    callPrompts evs = "Hello" :: tests ∧
    (runTests llm model tests).2.1.map TestResult.query = tests ∧
    rep.sections.map TestSection.query = tests ∧
    rep.sections.map TestSection.index = List.range' 1 tests.length := by
  obtain ⟨hok, -, hsec, -, hevs⟩ := runBenchmark_eq_some h
  obtain ⟨hev, hq⟩ := runTests_ok llm model tests hok
  have hlen : (runTests llm model tests).2.1.length = tests.length := by
    have := congrArg List.length hq
    simpa using this
  refine ⟨?_, hq, ?_, ?_⟩
  · rw [hevs, hev, callPrompts_append]
    simp [callPrompts, callPrompts_map_call, callPrompts_map_write]
  · rw [hsec, mkSections,
      mkSectionsFrom_map TestSection.query TestResult.query (fun i r => rfl), hq]
  · rw [hsec, mkSections, mkSectionsFrom_index, hlen]

/-- Witness for C8 on the concrete run `runW`. -/
theorem prober_called_in_order_witness :
    callPrompts runW.1 = "Hello" :: ["2+2=?"] ∧
    (runTests llmW "test-model" ["2+2=?"]).2.1.map TestResult.query = ["2+2=?"] ∧
    repW.sections.map TestSection.query = ["2+2=?"] ∧
    repW.sections.map TestSection.index = List.range' 1 (["2+2=?"] : List String).length :=
  prober_called_in_order llmW ["2+2=?"] "test-model" dateW runW.1 repW rfl

/-- C9: if any measured prober call fails, the run performs no file
write at all; and on a completed run the trace is all the calls followed
by all the writes, so every write happens only after every prober call
has completed (src/benchmark.ts lines 79-128). -/
theorem report_written_after_calls
    (llm : String → Option ServerResponse) (tests : List String)
    (model : String) (now : JsDate) :
    ((∃ t ∈ tests, benchmarkOllamaWithLangchain llm t model = none) →
       ∀ p, Event.write p ∉ (runBenchmark llm tests model now).1) ∧
    (∀ evs rep, runBenchmark llm tests model now = (evs, some rep) →
       evs = ("Hello" :: tests).map Event.call
         ++ Event.write (ReportPart.summaryPart rep.summary)
           :: rep.sections.map (fun s => Event.write (ReportPart.testPart s))) := by
  constructor
  · intro hfail p hmem
    have hok : (runTests llm model tests).2.2 = false :=
      runTests_fail llm model tests hfail
    unfold runBenchmark at hmem
    cases hw : benchmarkOllamaWithLangchain llm "Hello" model with
    | none =>
      rw [hw] at hmem
      simp at hmem
    | some w =>
      rw [hw] at hmem
      dsimp only at hmem
      rw [hok] at hmem
      rcases List.mem_cons.mp hmem with h1 | h1
      · exact Event.noConfusion h1
      · obtain ⟨q, hquery⟩ := runTests_calls llm model tests _ h1
        exact Event.noConfusion hquery
  · intro evs rep h
    obtain ⟨hok, -, -, -, hevs⟩ := runBenchmark_eq_some h
    obtain ⟨hev, -⟩ := runTests_ok llm model tests hok
    rw [hevs, hev]
    simp

/-- Witness for C9: a failing endpoint writes nothing; the completed run
`runW` has the calls-then-writes trace shape. -/
theorem report_written_after_calls_witness :
    (∀ p, Event.write p ∉
      (runBenchmark (fun _ => none) ["2+2=?"] "m" dateW).1) ∧
    runW.1 = ("Hello" :: ["2+2=?"]).map Event.call
      ++ Event.write (ReportPart.summaryPart repW.summary)
        :: repW.sections.map (fun s => Event.write (ReportPart.testPart s)) :=
  ⟨(report_written_after_calls (fun _ => none) ["2+2=?"] "m" dateW).1
      ⟨"2+2=?", by simp, rfl⟩,
   (report_written_after_calls llmW ["2+2=?"] "test-model" dateW).2 runW.1 repW rfl⟩

/-- C10: the prompt string is interpreted as a chat prompt template, not
sent literally (src/benchmark.ts lines 33-35): whenever template
rendering fails — in particular for a prompt containing the unbound
placeholder `\x7bx\x7d` — the prober call fails instead of returning a
`TestResult`. -/
theorem prompt_treated_as_template :
    (∀ (llm : String → Option ServerResponse) (input model : String),
       chatPromptTemplateInvoke input = none →
       benchmarkOllamaWithLangchain llm input model = none) ∧
    (∀ (llm : String → Option ServerResponse) (model : String),
       benchmarkOllamaWithLangchain llm "Solve for \x7bx\x7d." model = none) ∧
    chatPromptTemplateInvoke "Solve for \x7bx\x7d." = none := by
  have hcex : chatPromptTemplateInvoke "Solve for \x7bx\x7d." = none := by decide
  have hmain : ∀ (llm : String → Option ServerResponse) (input model : String),
      chatPromptTemplateInvoke input = none →
      benchmarkOllamaWithLangchain llm input model = none := by
    intro llm input model hnone
    unfold benchmarkOllamaWithLangchain
    rw [hnone]
  exact ⟨hmain, fun llm model => hmain llm _ model hcex, hcex⟩

/-- Witness for C10: the template-failure propagation instantiated on a
concrete endpoint and placeholder prompt. -/
theorem prompt_treated_as_template_witness :
    benchmarkOllamaWithLangchain llmW "\x7bq\x7d" "m" = none :=
  prompt_treated_as_template.1 llmW "\x7bq\x7d" "m" (by decide)

/-- C6 counterexample: with an empty prompt list the coordinator does
run (the warm-up call happens), but it then aborts with a signaled
error while building the summary — the template reads `results[0]` of
the empty results list — so no summary carrying NaN-like values is
produced, contradicting the claim that the values appear in the summary
rather than an error being signaled. -/
theorem empty_prompts_error_cex :
    runBenchmark (fun _ => some ⟨"ok", 1000000000, 1, 1, 2⟩) [] "m" dateW
      = ([Event.call "Hello"], none) := by decide

/-- C6 amended: with an empty prompt list the run does not fail up
front — the warm-up call is still issued — and the average computations
do divide by zero, producing NaN (modelled `none`); but those values
never reach a summary: building the summary reads the first element of
the empty results list and signals an error, aborting the run. -/
theorem empty_prompts_amended
    (llm : String → Option ServerResponse) (model : String) (now : JsDate)
    (w : TestResult)
    (hw : benchmarkOllamaWithLangchain llm "Hello" model = some w) :
    runBenchmark llm [] model now = ([Event.call "Hello"], none) ∧
    averageTime [] = none ∧
    averageInputTokens [] = none ∧
    averageOutputTokens [] = none ∧
    averageTotalTokens [] = none ∧
    averageTokensPerSecond [] = none ∧
    (∀ prompts, summaryTemplate [] prompts = none) := by
  refine ⟨?_, ?_, ?_, ?_, ?_, ?_, fun _ => rfl⟩
  · unfold runBenchmark
    rw [hw]
    rfl
  · simp [averageTime, jsDiv]
  · simp [averageInputTokens, jsDiv]
  · simp [averageOutputTokens, jsDiv]
  · simp [averageTotalTokens, jsDiv]
  · simp [averageTokensPerSecond, jsDiv]

/-- Witness for C6 on a concrete endpoint. -/
theorem empty_prompts_amended_witness :
    runBenchmark (fun _ => some ⟨"ok", 2000000000, 2, 2, 4⟩) [] "m" dateW
      = ([Event.call "Hello"], none) ∧
    averageTime [] = none ∧
    averageInputTokens [] = none ∧
    averageOutputTokens [] = none ∧
    averageTotalTokens [] = none ∧
    averageTokensPerSecond [] = none ∧
    (∀ prompts, summaryTemplate [] prompts = none) :=
  empty_prompts_amended (fun _ => some ⟨"ok", 2000000000, 2, 2, 4⟩) "m" dateW _ rfl

/-- C7 counterexample: at the concrete start instant 2024-01-02
03:04:05.006 UTC the timestamp embedded in the report file name is
"2024-01-02T03-04-05-006Z" — it keeps the trailing `Z` of
`toISOString`, so it does not have the claimed 23-position form
`YYYY-MM-DDTHH-MM-SS-mmm`. -/
theorem timestamp_claimed_form_cex :
    benchmarkDateTime dateW = "2024-01-02T03-04-05-006Z" ∧
    matchesPat (benchmarkDateTime dateW).toList claimedTimestampPat = false := by
  constructor
  · decide
  · decide

/-- C7 amended: the report path is `./results/benchmark-<timestamp>.md`
where the timestamp is the ISO-8601 start time with every colon and
every period replaced by a hyphen; the timestamp has the form
`YYYY-MM-DDTHH-MM-SS-mmmZ` (the trailing `Z` of `toISOString` is kept)
and contains no colon and no period. -/
theorem timestamp_filename_amended (d : JsDate)
    (hy : d.year ≤ 9999) (hmo : d.month ≤ 99) (hda : d.day ≤ 99)
    (hh : d.hour ≤ 99) (hmi : d.minute ≤ 99) (hse : d.second ≤ 99)
    (hms : d.ms ≤ 999) :
    reportFileName d = "./results/benchmark-" ++ benchmarkDateTime d ++ ".md" ∧
    benchmarkDateTime d =
      String.mk (replaceAllChar (replaceAllChar (toISOChars d) ':' '-') '.' '-') ∧
    matchesPat (benchmarkDateTime d).toList amendedTimestampPat = true ∧
    ':' ∉ (benchmarkDateTime d).toList ∧
    '.' ∉ (benchmarkDateTime d).toList := by
  refine ⟨rfl, benchmarkDateTime_def d, ?_, ?_, ?_⟩
  · have hF : (benchmarkDateTime d).toList =
        padZeros 4 d.year ++ ['-'] ++ padZeros 2 d.month ++ ['-']
          ++ padZeros 2 d.day ++ ['T'] ++ padZeros 2 d.hour ++ ['-']
          ++ padZeros 2 d.minute ++ ['-'] ++ padZeros 2 d.second ++ ['-']
          ++ padZeros 3 d.ms ++ ['Z'] := by
      rw [benchmarkDateTime_toList, toISOChars]
      have fixp : ∀ w n : ℕ,
          replaceAllChar (replaceAllChar (padZeros w n) ':' '-') '.' '-'
            = padZeros w n := by
        intro w n
        rw [replace_fix_digits (padZeros w n) (padZeros_digits w n) ':' '-'
              (by decide),
            replace_fix_digits (padZeros w n) (padZeros_digits w n) '.' '-'
              (by decide)]
      have edash : replaceAllChar (replaceAllChar ['-'] ':' '-') '.' '-' = ['-'] := by
        decide
      have ecolon : replaceAllChar (replaceAllChar [':'] ':' '-') '.' '-' = ['-'] := by
        decide
      have edot : replaceAllChar (replaceAllChar ['.'] ':' '-') '.' '-' = ['-'] := by
        decide
      have eT : replaceAllChar (replaceAllChar ['T'] ':' '-') '.' '-' = ['T'] := by
        decide
      have eZ : replaceAllChar (replaceAllChar ['Z'] ':' '-') '.' '-' = ['Z'] := by
        decide
      simp only [replaceAllChar_append, fixp, edash, ecolon, edot, eT, eZ]
    have h4 : d.year < 10 ^ 4 := lt_of_le_of_lt hy (by norm_num)
    have h2mo : d.month < 10 ^ 2 := lt_of_le_of_lt hmo (by norm_num)
    have h2da : d.day < 10 ^ 2 := lt_of_le_of_lt hda (by norm_num)
    have h2h : d.hour < 10 ^ 2 := lt_of_le_of_lt hh (by norm_num)
    have h2mi : d.minute < 10 ^ 2 := lt_of_le_of_lt hmi (by norm_num)
    have h2se : d.second < 10 ^ 2 := lt_of_le_of_lt hse (by norm_num)
    have h3ms : d.ms < 10 ^ 3 := lt_of_le_of_lt hms (by norm_num)
    have p1 := padZeros_matches 4 d.year h4 (by norm_num)
    have p2 := padZeros_matches 2 d.month h2mo (by norm_num)
    have p3 := padZeros_matches 2 d.day h2da (by norm_num)
    have p4 := padZeros_matches 2 d.hour h2h (by norm_num)
    have p5 := padZeros_matches 2 d.minute h2mi (by norm_num)
    have p6 := padZeros_matches 2 d.second h2se (by norm_num)
    have p7 := padZeros_matches 3 d.ms h3ms (by norm_num)
    have sdash : matchesPat ['-'] [PatChar.dash] = true ∧
        (['-'] : List Char).length = ([PatChar.dash] : List PatChar).length := by
      constructor <;> decide
    have sT : matchesPat ['T'] [PatChar.tsep] = true ∧
        (['T'] : List Char).length = ([PatChar.tsep] : List PatChar).length := by
      constructor <;> decide
    have sZ : matchesPat ['Z'] [PatChar.zee] = true ∧
        (['Z'] : List Char).length = ([PatChar.zee] : List PatChar).length := by
      constructor <;> decide
    have a1 := matchesPat_append_len _ _ _ _ p1.1 p1.2 sdash.1 sdash.2
    have a2 := matchesPat_append_len _ _ _ _ a1.1 a1.2 p2.1 p2.2
    have a3 := matchesPat_append_len _ _ _ _ a2.1 a2.2 sdash.1 sdash.2
    have a4 := matchesPat_append_len _ _ _ _ a3.1 a3.2 p3.1 p3.2
    have a5 := matchesPat_append_len _ _ _ _ a4.1 a4.2 sT.1 sT.2
    have a6 := matchesPat_append_len _ _ _ _ a5.1 a5.2 p4.1 p4.2
    have a7 := matchesPat_append_len _ _ _ _ a6.1 a6.2 sdash.1 sdash.2
    have a8 := matchesPat_append_len _ _ _ _ a7.1 a7.2 p5.1 p5.2
    have a9 := matchesPat_append_len _ _ _ _ a8.1 a8.2 sdash.1 sdash.2
    have a10 := matchesPat_append_len _ _ _ _ a9.1 a9.2 p6.1 p6.2
    have a11 := matchesPat_append_len _ _ _ _ a10.1 a10.2 sdash.1 sdash.2
    have a12 := matchesPat_append_len _ _ _ _ a11.1 a11.2 p7.1 p7.2
    have a13 := matchesPat_append_len _ _ _ _ a12.1 a12.2 sZ.1 sZ.2
    rw [hF, amendedTimestampPat, claimedTimestampPat]
    exact a13.1
  · rw [benchmarkDateTime_toList]
    exact not_mem_replaceAllChar_of_not_mem _ '.' '-' ':' (by decide)
      (not_mem_replaceAllChar _ ':' '-' (by decide))
  · rw [benchmarkDateTime_toList]
    exact not_mem_replaceAllChar _ '.' '-' (by decide)

/-- Witness for C7 at the concrete start instant `dateW`. -/
theorem timestamp_filename_amended_witness :
    reportFileName dateW
      = "./results/benchmark-" ++ benchmarkDateTime dateW ++ ".md" ∧
    benchmarkDateTime dateW =
      String.mk (replaceAllChar (replaceAllChar (toISOChars dateW) ':' '-') '.' '-') ∧
    matchesPat (benchmarkDateTime dateW).toList amendedTimestampPat = true ∧
    ':' ∉ (benchmarkDateTime dateW).toList ∧
    '.' ∉ (benchmarkDateTime dateW).toList :=
  timestamp_filename_amended dateW (by decide) (by decide) (by decide) (by decide)
    (by decide) (by decide) (by decide)

end OllamaBench
